import Mathlib

/-!
Verification development for the ASkit Association Engine.

Part 1 embeds the Firth Newton-Raphson solver of `ASkit/stats.py`.
The solver's numeric kernels (`_predict`, `_get_XW`, `_fisher_info_mtx`,
`_hat_diag`, the least-squares solve, `_firth_loglikelihood`, and
`jnp.linalg.norm`) are real-valued transcendental computations (sigmoid,
log, det, QR, sqrt); the embedding abstracts them as parameters
(`ll` for the penalized negative log-likelihood at a coefficient vector,
`newton_update` for the proposed Newton candidate, `normOf` for the
euclidean norm of a vector) quantified universally, and transcribes the
two nested loops (`jax.lax.while_loop` with `_step_condition`/
`_step_halving` and `_newton_cond`/`_newton_raphson`) exactly.
Coefficient vectors are lists of rationals.
-/

/-- Pointwise `b + 0.5 * (b_new - b)` on coefficient vectors,
as in `_step_halving`. -/

def halveStep (b b_new : List ℚ) : List ℚ :=
  List.zipWith (fun x y => x + (1 / 2) * (y - x)) b b_new

/-- The carry dictionary of the inner (step-halving) `jax.lax.while_loop`
in `_newton_iteration` (stats.py lines 65-74): candidate `b_new`, current
`b`, the two penalized negative log-likelihood values, the halving count
`step`, and the cap `max_halfstep`. -/

structure HalfstepCarry where
  b_new : List ℚ
  b : List ℚ
  old_ll : ℚ
  new_ll : ℚ
  step : ℕ
  max_halfstep : ℕ
deriving Repr

/-- `_step_condition` (stats.py lines 79-81): continue while the halving
count has not reached `max_halfstep` and the candidate is strictly worse. -/

def step_condition (c : HalfstepCarry) : Bool :=
  !(c.step == c.max_halfstep) && (c.new_ll > c.old_ll)

/-- `_step_halving` (stats.py lines 84-89): move the candidate halfway back
towards `b`, recompute its penalized negative log-likelihood with `ll`
(standing for `_firth_loglikelihood X y`), and bump the halving count. -/

def step_halving (ll : List ℚ → ℚ) (c : HalfstepCarry) : HalfstepCarry :=
  let b_new := halveStep c.b c.b_new
  { c with b_new := b_new, new_ll := ll b_new, step := c.step + 1 }

/-- The inner `jax.lax.while_loop(_step_condition, _step_halving, carry)`
(stats.py line 75), written with explicit fuel.  The loop starts at
`step = 0` and every iteration increments `step`, so fuel
`max_halfstep` is never exhausted before the condition turns false
(`stepHalvingLoop_exit` below makes this precise). -/

def stepHalvingLoop (ll : List ℚ → ℚ) : ℕ → HalfstepCarry → HalfstepCarry
  | 0, c => c
  | fuel + 1, c =>
    if step_condition c then stepHalvingLoop ll fuel (step_halving ll c) else c

/-- `_newton_iteration` (stats.py lines 54-76): propose the Newton candidate
(`newton_update`, standing for `b + lstsq(FIM, U)`), evaluate the penalized
negative log-likelihood at `b` and at the candidate, then run step-halving. -/

def newton_iteration (ll : List ℚ → ℚ) (newton_update : List ℚ → List ℚ)
    (b : List ℚ) (max_halfstep : ℕ) : HalfstepCarry :=
  let b_new := newton_update b
  stepHalvingLoop ll max_halfstep
    { b_new := b_new, b := b, old_ll := ll b, new_ll := ll b_new,
      step := 0, max_halfstep := max_halfstep }

/-- The carry dictionary of the outer Newton-Raphson `jax.lax.while_loop`
in `fit_firth` (stats.py lines 21-32). -/

structure NewtonCarry where
  b_new : List ℚ
  b : List ℚ
  old_ll : ℚ
  new_ll : ℚ
  iter : ℕ
  max_iter : ℕ
  max_halfstep : ℕ
  convergence_limit : ℚ
deriving Repr

/-- `_newton_cond` (stats.py lines 48-51): continue while
`norm(b_new - b) > convergence_limit` and `iter < max_iter`.
`normOf` stands for `jnp.linalg.norm`, and `vecSub` below for the
pointwise difference `b_new - b`. -/

def vecSub (x y : List ℚ) : List ℚ := List.zipWith (fun a b => a - b) x y

def newton_cond (normOf : List ℚ → ℚ) (c : NewtonCarry) : Bool :=
  (normOf (vecSub c.b_new c.b) > c.convergence_limit) && (c.iter < c.max_iter)

/-- `_newton_raphson` (stats.py lines 38-45): accept the previous candidate
as the current `b`, run one `_newton_iteration` from it (with the
configured `max_halfstep`), record its `new_ll` and `b_new`, and bump the
outer iteration count. -/

def newton_raphson (ll : List ℚ → ℚ) (newton_update : List ℚ → List ℚ)
    (c : NewtonCarry) : NewtonCarry :=
  let it := newton_iteration ll newton_update c.b_new c.max_halfstep
  { c with
    b := c.b_new
    new_ll := it.new_ll
    b_new := it.b_new
    iter := c.iter + 1 }

/-- The outer `jax.lax.while_loop(_newton_cond, _newton_raphson, carry)`
(stats.py line 33), written with explicit fuel.  The carry starts at
`iter = 1` and the condition requires `iter < max_iter`, so fuel
`max_iter` is never exhausted before the condition turns false
(`newtonLoop_exit` below makes this precise). -/

def newtonLoop (ll : List ℚ → ℚ) (newton_update : List ℚ → List ℚ)
    (normOf : List ℚ → ℚ) : ℕ → NewtonCarry → NewtonCarry
  | 0, c => c
  | fuel + 1, c =>
    if newton_cond normOf c then
      newtonLoop ll newton_update normOf fuel (newton_raphson ll newton_update c)
    else c

/-- The state reached by `fit_firth` (stats.py lines 8-35) when the outer
while-loop exits: start from `b = 0` (length `p`), take the candidate of an
initial `_newton_iteration` — whose halving cap is `max_iter`, exactly as
in line 20 of the source — seed the carry with `iter = 1`, and loop. -/

def fitFirthCarry (ll : List ℚ → ℚ) (newton_update : List ℚ → List ℚ)
    (normOf : List ℚ → ℚ) (p : ℕ) (max_iter : ℕ) (max_halfstep : ℕ)
    (convergence_limit : ℚ) : NewtonCarry :=
  let b : List ℚ := List.replicate p 0
  let b_new := (newton_iteration ll newton_update b max_iter).b_new
  newtonLoop ll newton_update normOf max_iter
    { b_new := b_new, b := b, old_ll := 0, new_ll := 0, iter := 1,
      max_iter := max_iter, max_halfstep := max_halfstep,
      convergence_limit := convergence_limit }

/-- `fit_firth` returns `res["iter"], res["b_new"], res["new_ll"]`
(stats.py line 35). -/

def fit_firth (ll : List ℚ → ℚ) (newton_update : List ℚ → List ℚ)
    (normOf : List ℚ → ℚ) (p : ℕ) (max_iter : ℕ) (max_halfstep : ℕ)
    (convergence_limit : ℚ) : ℕ × List ℚ × ℚ :=
  let res := fitFirthCarry ll newton_update normOf p max_iter max_halfstep
    convergence_limit
  (res.iter, res.b_new, res.new_ll)

/-!
Part 2 embeds the batch orchestration of `src/askit/mas/analysis.py`
(`run_all_regressions`, `_run_single_regression`,
`_validate_regression_input`, `_check_case_counts`,
`_drop_constant_covariates_for_regression`, `_get_output_schema`) together
with the configuration object of `src/askit/mas/config.py`.  Python's
leading underscores are dropped from the Lean names.  A polars DataFrame
is modelled as an ordered column-name list plus a list of rows, a row
being a map from column name to an optional rational (`none` = null).
The three fitting strategies imported from `askit.mas.models` are not
part of the source tree; they are abstracted as an oracle parameter
(see `FitOracle`).
-/

/-- A polars row: a named cell per column, null as `none`. -/
abbrev Row := String → Option ℚ

/-- A polars DataFrame: ordered column names plus rows. -/
structure DF where
  cols : List String
  rows : List Row

/-- `df.select(names)`: keep exactly the named columns, in the given
order (rows keep all cells; only `cols` records which are visible). -/
def DF.select (df : DF) (names : List String) : DF :=
  { cols := names, rows := df.rows }

/-- `df.drop_nulls(names)`: keep the rows that are non-null in every one
of the named columns. -/
def DF.drop_nulls (df : DF) (names : List String) : DF :=
  { cols := df.cols, rows := df.rows.filter (fun r => names.all (fun c => (r c).isSome)) }

/-- `df.height`: the number of rows. -/
def DF.height (df : DF) : ℕ := df.rows.length

/-- `df.select(pl.col(c).sum()).item()`: the sum of a column
(polars sums over the non-null cells; a null contributes nothing). -/
def DF.colSum (df : DF) (c : String) : ℚ :=
  (df.rows.map (fun r => (r c).getD 0)).sum

/-- `pl.col(c).n_unique()`: the number of distinct cell values of a
column, a null counting as one value. -/
def DF.nUnique (df : DF) (c : String) : ℕ :=
  (df.rows.map (fun r => r c)).dedup.length

/-- `df.drop(names)`: remove the named columns, keeping the order of the
remaining ones. -/
def DF.drop (df : DF) (names : List String) : DF :=
  { cols := df.cols.filter (fun c => !names.contains c), rows := df.rows }

/-- `df.get_column(c).to_numpy()`: the cell values of a column (after
`drop_nulls` no null is left; a null would surface as the default). -/
def DF.column (df : DF) (c : String) : List ℚ :=
  df.rows.map (fun r => (r c).getD 0)

/-- The four values of `MASConfig.model`
(`config.py`, `Literal["firth", "firth-hybrid", "logistic", "linear"]`). -/
inductive ModelType
  | firth
  | firthHybrid
  | logistic
  | linear
deriving DecidableEq, Repr

/-- The fields of the `MASConfig` dataclass (`config.py` lines 31-131)
that the Association Engine reads.  Note, faithfully to the source: the
dataclass declares *no* `alpha` field, and `MASConfig.from_args` — the
only constructor used (`pipeline.py`) — does not assign one even though
the CLI parses `--alpha`. -/
structure MASConfig where
  predictor_columns : List String
  dependent_columns : List String
  covariate_columns : List String
  model : ModelType
  min_case_count : ℕ
  threads_per_worker : ℕ
  num_workers : ℕ

/-- The Python attribute lookup `config.alpha` (analysis.py line 135).
`MASConfig` declares no field `alpha` and nothing ever assigns one, so
the lookup finds nothing (in Python: it raises `AttributeError`);
modelled as `none`. -/
def MASConfig.alphaAttr (_ : MASConfig) : Option ℚ := none

/-- The message of the `AttributeError` raised by `config.alpha`
(apostrophes of the Python rendering omitted). -/
def alphaAttrError : String :=
  "AttributeError: MASConfig object has no attribute alpha"

/-- One output-schema mapping / result row (`_get_output_schema`).  The
per-model schemas are merged here into their union (which is also what
`pl.concat(..., how="diagonal_relaxed")` produces): for a linear batch
the logistic-family cells (`OR...`, `cases`, `controls`, `total_n`,
`converged`) simply never leave their sentinels, and conversely for
`n_observations`.  `none` stands for the float NaN sentinel. -/
structure ResultRow where
  predictor : String
  dependent : String
  pval : Option ℚ
  beta : Option ℚ
  se : Option ℚ
  beta_ci_low : Option ℚ
  beta_ci_high : Option ℚ
  failed_reason : String
  equation : String
  OR : Option ℚ
  OR_ci_low : Option ℚ
  OR_ci_high : Option ℚ
  cases : ℚ
  controls : ℚ
  total_n : ℚ
  converged : Bool
  n_observations : ℚ

/-- The `base_schema` dictionary of `_get_output_schema`
(analysis.py lines 325-335), extended with the union fields at their
absent/sentinel values. -/
def baseSchema : ResultRow where
  predictor := "nan"
  dependent := "nan"
  pval := none
  beta := none
  se := none
  beta_ci_low := none
  beta_ci_high := none
  failed_reason := "nan"
  equation := "nan"
  OR := none
  OR_ci_low := none
  OR_ci_high := none
  cases := -9
  controls := -9
  total_n := -9
  converged := false
  n_observations := -9

/-- `_get_output_schema` (analysis.py lines 311-354): the default result
row for the given model type. -/
def get_output_schema (model_type : ModelType) : ResultRow :=
  match model_type with
  | .logistic | .firth | .firthHybrid =>
    { baseSchema with
      OR := none
      OR_ci_low := none
      OR_ci_high := none
      cases := -9
      controls := -9
      total_n := -9
      converged := false }
  | .linear =>
    { baseSchema with n_observations := -9 }

/-- `_check_case_counts` (analysis.py lines 220-273): passed flag,
failure reason ("nan" when passed), case count, control count, total. -/
def check_case_counts (df : DF) (dependent : String) (min_case_count : ℕ) :
    Bool × String × ℚ × ℚ × ℕ :=
  let n_rows := df.height
  let n_cases : ℚ := df.colSum dependent
  let n_controls : ℚ := (n_rows : ℚ) - n_cases
  if n_cases = 0 ∨ n_controls = 0 then
    (false, "No variation in dependent variable (all cases or all controls)",
      n_cases, n_controls, n_rows)
  else if n_cases < (min_case_count : ℚ) then
    (false, "Insufficient cases: " ++ toString n_cases ++ " (< " ++
      toString min_case_count ++ ")", n_cases, n_controls, n_rows)
  else if n_controls < (min_case_count : ℚ) then
    (false, "Insufficient controls: " ++ toString n_controls ++ " (< " ++
      toString min_case_count ++ ")", n_cases, n_controls, n_rows)
  else
    (true, "nan", n_cases, n_controls, n_rows)

/-- `_validate_regression_input` (analysis.py lines 156-217). -/
def validate_regression_input (df : DF) (predictor dependent : String)
    (cfg : MASConfig) (output_schema : ResultRow) : ResultRow :=
  let row := { output_schema with predictor := predictor, dependent := dependent }
  if df.height < cfg.min_case_count then
    { row with
      failed_reason := "Insufficient data: " ++ toString df.height ++
        " rows (< " ++ toString cfg.min_case_count ++ ")" }
  else if cfg.model = .logistic ∨ cfg.model = .firth ∨ cfg.model = .firthHybrid then
    let res := check_case_counts df dependent cfg.min_case_count
    { row with
      failed_reason := res.2.1
      cases := res.2.2.1
      controls := res.2.2.2.1
      total_n := (res.2.2.2.2 : ℚ) }
  else
    { row with n_observations := (df.height : ℚ) }

/-- `_drop_constant_covariates_for_regression`
(analysis.py lines 276-308): drop every configured covariate column with
at most one distinct value in this task's data; the config's
`covariate_columns` list is read, never written. -/
def drop_constant_covariates_for_regression (df : DF) (cfg : MASConfig) : DF :=
  let covariate_cols := cfg.covariate_columns
  if covariate_cols.isEmpty then df
  else
    let constant_covariates := covariate_cols.filter (fun c => df.nUnique c ≤ 1)
    if constant_covariates.isEmpty then df
    else df.drop constant_covariates

/-- Modelled from the spec: the result contract shared by the three
fitting strategies of `askit.mas.models` (a module absent from the
source tree; §6 lists the logistic-family fields, linear fits carry no
odds-ratio fields, hence the `Option`s). -/
structure FitResult where
  pval : ℚ
  beta : ℚ
  se : ℚ
  beta_ci_low : ℚ
  beta_ci_high : ℚ
  OR : Option ℚ
  OR_ci_low : Option ℚ
  OR_ci_high : Option ℚ
  converged : Bool

/-- Modelled from the spec: the three interchangeable fitting strategies
(`firth_regression`, `logistic_regression`, `linear_regression`)
imported by analysis.py from `askit.mas.models`, which is absent from
the source tree.  Each takes the design matrix `X` and response `y` and
either returns a result mapping or raises (`Except.error` carries the
exception's message, which the caller records). -/
structure FitOracle where
  firth_regression : DF → List ℚ → Except String FitResult
  logistic_regression : DF → List ℚ → Except String FitResult
  linear_regression : DF → List ℚ → Except String FitResult

/-- The `match config.model` of `_run_single_regression`
(analysis.py lines 120-128): `firth-hybrid` first runs the plain
logistic fit. -/
def model_func (fits : FitOracle) (m : ModelType) :
    DF → List ℚ → Except String FitResult :=
  match m with
  | .firth => fits.firth_regression
  | .logistic => fits.logistic_regression
  | .linear => fits.linear_regression
  | .firthHybrid => fits.logistic_regression

/-- The guarded fit of `_run_single_regression` (analysis.py lines
130-141): run the selected model; for `firth-hybrid`, evaluate
`regression_result["pval"] < config.alpha` — which first looks up
`config.alpha` and therefore raises (see `MASConfig.alphaAttr`) — and
on a true comparison discard the logistic result and re-fit with Firth.
Any exception escapes to the caller's `except` clause. -/
def task_fit (fits : FitOracle) (cfg : MASConfig) (X : DF) (y : List ℚ) :
    Except String FitResult :=
  match model_func fits cfg.model X y with
  | .error e => .error e
  | .ok regression_result =>
    if cfg.model = .firthHybrid then
      match cfg.alphaAttr with
      | none => .error alphaAttrError
      | some alpha =>
        if regression_result.pval < alpha then fits.firth_regression X y
        else .ok regression_result
    else .ok regression_result

/-- `output_schema.update(regression_result)` (analysis.py line 141):
overwrite the row's cells with the fit's entries; an `Option` field of
the fit result that is `none` models a key the strategy's dict does not
carry, leaving the row's cell untouched. -/
def applyFit (row : ResultRow) (fr : FitResult) : ResultRow :=
  { row with
    pval := some fr.pval
    beta := some fr.beta
    se := some fr.se
    beta_ci_low := some fr.beta_ci_low
    beta_ci_high := some fr.beta_ci_high
    OR := fr.OR.or row.OR
    OR_ci_low := fr.OR_ci_low.or row.OR_ci_low
    OR_ci_high := fr.OR_ci_high.or row.OR_ci_high
    converged := fr.converged }

/-- The per-task data of `_run_single_regression` (analysis.py lines
89-94): scan the shared table, select the task's columns, and drop the
rows that are null in the predictor or the dependent column. -/
def task_df (table : DF) (cfg : MASConfig) (predictor dependent : String) : DF :=
  (table.select ([predictor, dependent] ++ cfg.covariate_columns)).drop_nulls
    [predictor, dependent]

/-- `pred_col = col_names[0]` (analysis.py line 111), over the data with
constant covariates already dropped. -/
def task_pred_col (df2 : DF) : String := df2.cols.getD 0 ""

/-- `dep_col = col_names[1]` (analysis.py line 112). -/
def task_dep_col (df2 : DF) : String := df2.cols.getD 1 ""

/-- `covariates = [c for c in col_names if c not in [pred_col, dep_col]]`
(analysis.py line 113). -/
def task_covariates (df2 : DF) : List String :=
  df2.cols.filter (fun c => !(c == task_pred_col df2 || c == task_dep_col df2))

/-- The equation string (analysis.py line 115):
`f"{dep_col} ~ {pred_col} + {' + '.join(covariates)}"` — note the `" + "`
written unconditionally before the joined covariate list. -/
def task_equation (df2 : DF) : String :=
  task_dep_col df2 ++ " ~ " ++ task_pred_col df2 ++ " + " ++
    String.intercalate " + " (task_covariates df2)

/-- `X = df.select([pred_col, *covariates])` (analysis.py line 117):
the design matrix handed to the fitting strategy. -/
def task_X (df2 : DF) : DF := df2.select (task_pred_col df2 :: task_covariates df2)

/-- `y = df.get_column(dep_col).to_numpy()` (analysis.py line 118). -/
def task_y (df2 : DF) : List ℚ := df2.column (task_dep_col df2)

/-- `_run_single_regression` (analysis.py lines 62-153), as the function
from a task to its result row (logging elided; the task/total counters
only feed logging). -/
def run_single_regression (fits : FitOracle) (cfg : MASConfig) (table : DF)
    (predictor dependent : String) : ResultRow :=
  let output_schema := get_output_schema cfg.model
  let df := task_df table cfg predictor dependent
  let row := validate_regression_input df predictor dependent cfg output_schema
  if row.failed_reason ≠ "nan" then row
  else
    let df2 := drop_constant_covariates_for_regression df cfg
    let row := { row with equation := task_equation df2 }
    match task_fit fits cfg (task_X df2) (task_y df2) with
    | .ok fr => applyFit row fr
    | .error e => { row with failed_reason := e }

/-- The task list of `run_all_regressions` (analysis.py lines 28-31):
the cross product of the configured predictors and dependents, in
nesting order. -/
def batch_targets (cfg : MASConfig) : List (String × String) :=
  cfg.predictor_columns.flatMap (fun p => cfg.dependent_columns.map (fun d => (p, d)))

/-- The order of `DataFrame.sort("pval")` on a float column in polars:
ascending, with the float NaN sentinel (`none` here) comparing greater
than every number — NaN rows therefore sort last. -/
def pval_le : Option ℚ → Option ℚ → Bool
  | none, none => true
  | none, some _ => false
  | some _, none => true
  | some a, some b => a ≤ b

def row_le (a b : ResultRow) : Bool := pval_le a.pval b.pval

/-- The process environment as far as the engine touches it:
the `POLARS_MAX_THREADS` variable (absent = `none`). -/
structure Env where
  polars_max_threads : Option String
deriving DecidableEq

/-- `run_all_regressions` (analysis.py lines 13-59): build the task
list, set `POLARS_MAX_THREADS` for the batch, run every task (the
worker pool completes them in arbitrary order; the per-task rows are
listed here in submission order, which the final sort makes canonical),
and in the `finally` clause delete or restore the variable before the
result — or the exception — leaves the function.  `batch_exc` models an
exception from the task-generation/pool machinery itself (e.g. an
interrupt): per-task failures never raise (see
`run_single_regression`). -/
def run_all_regressions (fits : FitOracle) (cfg : MASConfig) (table : DF)
    (batch_exc : Option String) (env : Env) :
    Except String (List ResultRow) × Env :=
  let original_env := env.polars_max_threads
  let _env_during : Env := { polars_max_threads := some (toString cfg.threads_per_worker) }
  let results : Except String (List ResultRow) :=
    match batch_exc with
    | some e => .error e
    | none =>
      .ok ((batch_targets cfg).map
        (fun t => run_single_regression fits cfg table t.1 t.2))
  let env_after : Env :=
    match original_env with
    | none => { polars_max_threads := none }
    | some v => { polars_max_threads := some v }
  match results with
  | .error e => (.error e, env_after)
  | .ok rows => (.ok (rows.mergeSort row_le), env_after)

/-- Follows the spec's words, for comparison with `task_df` (claim C6):
"rows with any null in the task's columns excluded" — the count of task
rows that are non-null in the predictor, the dependent, *and* every
covariate column. -/
def claimed_available_rows (table : DF) (cfg : MASConfig)
    (predictor dependent : String) : ℕ :=
  ((table.select ([predictor, dependent] ++ cfg.covariate_columns)).drop_nulls
    ([predictor, dependent] ++ cfg.covariate_columns)).height

/-- The number of task rows whose dependent cell holds exactly `v`
(the "true counts" of claim C7). -/
def count_dep_rows (df : DF) (dependent : String) (v : ℚ) : ℕ :=
  (df.rows.filter (fun r => decide (r dependent = some v))).length

/-- Case-insensitive character data of a string (ASCII lowering via
`Char.toLower`), for reading "contains" case-insensitively. -/
def lowerData (s : String) : List Char := s.data.map Char.toLower

/-- Case-insensitive substring containment: the reading of
"`failed_reason` contains ..." used by the claims. -/
def contains_ci (s pat : String) : Prop := lowerData pat <:+: lowerData s

/-- Build a concrete row from an association list (absent column = null). -/
def mkRow (cells : List (String × Option ℚ)) : Row :=
  fun c => (List.lookup c cells).join

/-- A fit oracle whose every strategy raises. -/
def errOracle : FitOracle :=
  { firth_regression := fun _ _ => .error "boom"
    logistic_regression := fun _ _ => .error "boom"
    linear_regression := fun _ _ => .error "boom" }

/-- A fixed successful fit result. -/
def fr0 : FitResult :=
  { pval := 1, beta := 0, se := 0, beta_ci_low := 0, beta_ci_high := 0,
    OR := none, OR_ci_low := none, OR_ci_high := none, converged := true }

/-- A fit oracle whose every strategy succeeds with `fr0`. -/
def okOracle : FitOracle :=
  { firth_regression := fun _ _ => .ok fr0
    logistic_regression := fun _ _ => .ok fr0
    linear_regression := fun _ _ => .ok fr0 }

/-- Linear config, no covariates, `min_case_count = 1`. -/
def cfgLinNoCov : MASConfig :=
  { predictor_columns := ["p"], dependent_columns := ["d"],
    covariate_columns := [], model := .linear, min_case_count := 1,
    threads_per_worker := 1, num_workers := 1 }

/-- Linear config with one covariate, `min_case_count = 2`. -/
def cfgLinCov : MASConfig :=
  { predictor_columns := ["p"], dependent_columns := ["d"],
    covariate_columns := ["c1"], model := .linear, min_case_count := 2,
    threads_per_worker := 1, num_workers := 1 }

/-- Linear config with two covariates, `min_case_count = 1`. -/
def cfgLinCov2 : MASConfig :=
  { predictor_columns := ["p"], dependent_columns := ["d"],
    covariate_columns := ["c1", "c2"], model := .linear, min_case_count := 1,
    threads_per_worker := 1, num_workers := 1 }

/-- Logistic config, `min_case_count = 2`. -/
def cfgLog : MASConfig :=
  { predictor_columns := ["p"], dependent_columns := ["d"],
    covariate_columns := [], model := .logistic, min_case_count := 2,
    threads_per_worker := 1, num_workers := 1 }

/-- Logistic config with the CLI default `min_case_count = 20`. -/
def cfgLogBig : MASConfig :=
  { predictor_columns := ["p"], dependent_columns := ["d"],
    covariate_columns := [], model := .logistic, min_case_count := 20,
    threads_per_worker := 1, num_workers := 1 }

/-- Hybrid config (no covariates, `min_case_count = 1`). -/
def cfgHyb : MASConfig :=
  { predictor_columns := ["p"], dependent_columns := ["d"],
    covariate_columns := [], model := .firthHybrid, min_case_count := 1,
    threads_per_worker := 1, num_workers := 1 }

/-- Two complete rows over columns `p`, `d`. -/
def tableLin : DF :=
  { cols := ["p", "d"],
    rows := [mkRow [("p", some 1), ("d", some 0)],
             mkRow [("p", some 2), ("d", some 1)]] }

/-- Four rows, all with `d = 1` (all cases, no controls). -/
def tableBin : DF :=
  { cols := ["p", "d"],
    rows := [mkRow [("p", some 1), ("d", some 1)],
             mkRow [("p", some 2), ("d", some 1)],
             mkRow [("p", some 3), ("d", some 1)],
             mkRow [("p", some 4), ("d", some 1)]] }

/-- Two rows complete in `p` and `d`; the first has a null covariate. -/
def tableCov : DF :=
  { cols := ["p", "d", "c1"],
    rows := [mkRow [("p", some 1), ("d", some 0)],
             mkRow [("p", some 1), ("d", some 1), ("c1", some 2)]] }

/-- Three complete rows; covariate `c1` is constant, `c2` varies. -/
def tableC9 : DF :=
  { cols := ["p", "d", "c1", "c2"],
    rows := [mkRow [("p", some 1), ("d", some 0), ("c1", some 5), ("c2", some 1)],
             mkRow [("p", some 2), ("d", some 1), ("c1", some 5), ("c2", some 2)],
             mkRow [("p", some 3), ("d", some 1), ("c1", some 5), ("c2", some 3)]] }

/-! ## Theorems -/

theorem stepHalvingLoop_max_halfstep (ll : List ℚ → ℚ) :
    ∀ (fuel : ℕ) (c : HalfstepCarry),
      (stepHalvingLoop ll fuel c).max_halfstep = c.max_halfstep
  | 0, _ => rfl
  | fuel + 1, c => by
    unfold stepHalvingLoop
    by_cases h : step_condition c
    · simp only [h, if_true]
      exact stepHalvingLoop_max_halfstep ll fuel (step_halving ll c)
    · simp [h]

/-- On exit, either the loop condition is false, or all the fuel was
consumed (and then `step` advanced by exactly `fuel`). -/

theorem stepHalvingLoop_exit (ll : List ℚ → ℚ) :
    ∀ (fuel : ℕ) (c : HalfstepCarry),
      step_condition (stepHalvingLoop ll fuel c) = false ∨
      (stepHalvingLoop ll fuel c).step = c.step + fuel
  | 0, c => Or.inr rfl
  | fuel + 1, c => by
    unfold stepHalvingLoop
    by_cases h : step_condition c
    · simp only [h, if_true]
      rcases stepHalvingLoop_exit ll fuel (step_halving ll c) with h' | h'
      · exact Or.inl h'
      · refine Or.inr ?_
        rw [h']
        simp [step_halving]
        omega
    · simp [h]

theorem newton_raphson_iter (ll : List ℚ → ℚ) (u : List ℚ → List ℚ)
    (c : NewtonCarry) : (newton_raphson ll u c).iter = c.iter + 1 := rfl

theorem newton_raphson_max_iter (ll : List ℚ → ℚ) (u : List ℚ → List ℚ)
    (c : NewtonCarry) : (newton_raphson ll u c).max_iter = c.max_iter := rfl

theorem newtonLoop_fields (ll : List ℚ → ℚ) (u : List ℚ → List ℚ)
    (n : List ℚ → ℚ) :
    ∀ (fuel : ℕ) (c : NewtonCarry),
      (newtonLoop ll u n fuel c).max_iter = c.max_iter ∧
      (newtonLoop ll u n fuel c).convergence_limit = c.convergence_limit
  | 0, _ => ⟨rfl, rfl⟩
  | fuel + 1, c => by
    unfold newtonLoop
    by_cases h : newton_cond n c
    · simp only [h, if_true]
      exact newtonLoop_fields ll u n fuel (newton_raphson ll u c)
    · simp [h]

theorem newtonLoop_iter_le (ll : List ℚ → ℚ) (u : List ℚ → List ℚ)
    (n : List ℚ → ℚ) :
    ∀ (fuel : ℕ) (c : NewtonCarry), c.iter ≤ c.max_iter →
      (newtonLoop ll u n fuel c).iter ≤ (newtonLoop ll u n fuel c).max_iter
  | 0, _, h => h
  | fuel + 1, c, h => by
    unfold newtonLoop
    by_cases hc : newton_cond n c
    · simp only [hc, if_true]
      refine newtonLoop_iter_le ll u n fuel (newton_raphson ll u c) ?_
      have hlt : c.iter < c.max_iter := by
        have := hc
        simp [newton_cond] at this
        exact this.2
      rw [newton_raphson_iter, newton_raphson_max_iter]
      omega
    · simp [hc, h]

/-- On exit, either the loop condition is false, or all the fuel was
consumed (and then `iter` advanced by exactly `fuel`). -/

theorem newtonLoop_exit (ll : List ℚ → ℚ) (u : List ℚ → List ℚ)
    (n : List ℚ → ℚ) :
    ∀ (fuel : ℕ) (c : NewtonCarry),
      newton_cond n (newtonLoop ll u n fuel c) = false ∨
      (newtonLoop ll u n fuel c).iter = c.iter + fuel
  | 0, c => Or.inr rfl
  | fuel + 1, c => by
    unfold newtonLoop
    by_cases h : newton_cond n c
    · simp only [h, if_true]
      rcases newtonLoop_exit ll u n fuel (newton_raphson ll u c) with h' | h'
      · exact Or.inl h'
      · refine Or.inr ?_
        rw [h', newton_raphson_iter]
        omega
    · simp [h]

/-- Boolean exit shape of the inner loop condition. -/
theorem step_condition_eq_false (c : HalfstepCarry) :
    step_condition c = false ↔ c.step = c.max_halfstep ∨ c.new_ll ≤ c.old_ll := by
  simp [step_condition, not_lt]
  tauto

/-- C1 counterexample: the claim quantifies over *every* halving cap
`max_halfstep`; with cap 1 and a likelihood for which halving does not
help, the loop exhausts the cap and the accepted candidate's penalized
negative log-likelihood (1) is strictly larger than the current one (0). -/
theorem step_halving_monotone_cex :
    ¬ ((newton_iteration (fun v => if v = [(0 : ℚ)] then 0 else 1)
          (fun _ => [(1 : ℚ)]) [(0 : ℚ)] 1).new_ll ≤
        (newton_iteration (fun v => if v = [(0 : ℚ)] then 0 else 1)
          (fun _ => [(1 : ℚ)]) [(0 : ℚ)] 1).old_ll) := by
  norm_num [newton_iteration, stepHalvingLoop, step_condition, step_halving,
    halveStep]

/-- C1 (amended): at every accepted outer Newton iteration the
step-halving loop guarantees `new_ll ≤ old_ll` *unless* the halving
count reached `max_halfstep` — on cap exhaustion the accepted candidate
may still be worse.  Quantified over the abstracted likelihood and
Newton update, hence over every design matrix, response and cap. -/
theorem step_halving_monotone_unless_cap (ll : List ℚ → ℚ)
    (newton_update : List ℚ → List ℚ) (b : List ℚ) (max_halfstep : ℕ) :
    (newton_iteration ll newton_update b max_halfstep).new_ll ≤
      (newton_iteration ll newton_update b max_halfstep).old_ll ∨
    (newton_iteration ll newton_update b max_halfstep).step =
      (newton_iteration ll newton_update b max_halfstep).max_halfstep := by
  unfold newton_iteration
  rcases stepHalvingLoop_exit ll max_halfstep
      { b_new := newton_update b, b := b, old_ll := ll b,
        new_ll := ll (newton_update b), step := 0,
        max_halfstep := max_halfstep } with h | h
  · rcases (step_condition_eq_false _).mp h with h' | h'
    · exact Or.inr h'
    · exact Or.inl h'
  · refine Or.inr ?_
    rw [h, stepHalvingLoop_max_halfstep]
    simp

/-- Boolean exit shape of the outer loop condition. -/
theorem newton_cond_eq_false (n : List ℚ → ℚ) (c : NewtonCarry) :
    newton_cond n c = false ↔
      n (vecSub c.b_new c.b) ≤ c.convergence_limit ∨ c.max_iter ≤ c.iter := by
  simp only [newton_cond, Bool.and_eq_false_iff, decide_eq_false_iff_not,
    not_lt, gt_iff_lt]

/-- Combined exit facts for the outer loop, given enough fuel. -/
theorem newtonLoop_result (ll : List ℚ → ℚ) (u : List ℚ → List ℚ)
    (n : List ℚ → ℚ) (fuel : ℕ) (c : NewtonCarry)
    (hiter : c.iter ≤ c.max_iter) (hfuel : c.max_iter ≤ c.iter + fuel) :
    (newtonLoop ll u n fuel c).iter ≤ c.max_iter ∧
    (n (vecSub (newtonLoop ll u n fuel c).b_new (newtonLoop ll u n fuel c).b) ≤
        c.convergence_limit ∨
      (newtonLoop ll u n fuel c).iter = c.max_iter) := by
  have hf := newtonLoop_fields ll u n fuel c
  have hle := newtonLoop_iter_le ll u n fuel c hiter
  rw [hf.1] at hle
  refine ⟨hle, ?_⟩
  rcases newtonLoop_exit ll u n fuel c with hcond | hiter'
  · rcases (newton_cond_eq_false n _).mp hcond with h' | h'
    · rw [hf.2] at h'
      exact Or.inl h'
    · rw [hf.1] at h'
      exact Or.inr (le_antisymm hle h')
  · refine Or.inr ?_
    omega

/-- C5: for every `max_iter ≥ 1` (and every likelihood, Newton update and
norm, hence every design matrix and binary response), `fit_firth` returns:
the outer Newton loop performed at most `max_iter` iterations, and on exit
either `norm(b_new - b) ≤ convergence_limit` held or the iteration count
reached `max_iter` — non-convergence is no error, the reached state is
returned. -/
theorem fit_firth_terminates (ll : List ℚ → ℚ) (newton_update : List ℚ → List ℚ)
    (normOf : List ℚ → ℚ) (p : ℕ) (max_iter : ℕ) (max_halfstep : ℕ)
    (convergence_limit : ℚ) (h : 1 ≤ max_iter) :
    (fit_firth ll newton_update normOf p max_iter max_halfstep
        convergence_limit).1 ≤ max_iter ∧
    (normOf (vecSub
          (fitFirthCarry ll newton_update normOf p max_iter max_halfstep
            convergence_limit).b_new
          (fitFirthCarry ll newton_update normOf p max_iter max_halfstep
            convergence_limit).b) ≤ convergence_limit ∨
      (fit_firth ll newton_update normOf p max_iter max_halfstep
          convergence_limit).1 = max_iter) := by
  have := newtonLoop_result ll newton_update normOf max_iter
    { b_new := (newton_iteration ll newton_update (List.replicate p 0)
        max_iter).b_new,
      b := List.replicate p 0, old_ll := 0, new_ll := 0, iter := 1,
      max_iter := max_iter, max_halfstep := max_halfstep,
      convergence_limit := convergence_limit } (by simpa) (by simp)
  exact this

/-- C5 witness: the termination bound evaluated at a concrete instance. -/
theorem fit_firth_terminates_witness :
    (fit_firth (fun _ => 0) (fun v => v) (fun _ => 0) 2 3 5 (1 / 10000)).1 ≤ 3 ∧
    ((fun _ => (0 : ℚ)) (vecSub
          (fitFirthCarry (fun _ => 0) (fun v => v) (fun _ => 0) 2 3 5
            (1 / 10000)).b_new
          (fitFirthCarry (fun _ => 0) (fun v => v) (fun _ => 0) 2 3 5
            (1 / 10000)).b) ≤ 1 / 10000 ∨
      (fit_firth (fun _ => 0) (fun v => v) (fun _ => 0) 2 3 5
          (1 / 10000)).1 = 3) :=
  fit_firth_terminates (fun _ => 0) (fun v => v) (fun _ => 0) 2 3 5 (1 / 10000)
    (by decide)

/-- C8: the `POLARS_MAX_THREADS` override is set once for the batch and
the prior value — or its absence — is restored by the `finally` clause on
every exit route: for every initial environment and for both outcomes of
the batch body (normal completion, or an exception/interrupt `batch_exc`
propagating out of the worker-pool machinery), the environment after
`run_all_regressions` equals the initial one.  The engine's only mutable
shared state is this one variable (`Env` has no other field). -/
theorem polars_max_threads_restored (fits : FitOracle) (cfg : MASConfig)
    (table : DF) (batch_exc : Option String) (env : Env) :
    (run_all_regressions fits cfg table batch_exc env).2 = env := by
  cases env with
  | mk v => cases v <;> cases batch_exc <;> rfl

/-- C3 (code bug): for every task on the `firth-hybrid` model whose
unpenalized logistic fit succeeds, the dispatch does *not* compare the
p-value against a configured alpha — evaluating `config.alpha` raises
`AttributeError` (the `MASConfig` dataclass has no such field and
`from_args` drops the parsed `--alpha`), so the task degrades to a
failure row and the Firth re-fit is never invoked, whatever the
strategies in the oracle. -/
theorem firth_hybrid_alpha_attribute_error (fits : FitOracle)
    (cfg : MASConfig) (X : DF) (y : List ℚ) (fr : FitResult)
    (hmodel : cfg.model = .firthHybrid)
    (hlog : fits.logistic_regression X y = .ok fr) :
    task_fit fits cfg X y = .error alphaAttrError := by
  unfold task_fit model_func
  rw [hmodel]
  simp [hlog, MASConfig.alphaAttr]

/-- C3 witness: the hybrid dispatch evaluated at a concrete config and a
successful logistic fit. -/
theorem firth_hybrid_alpha_attribute_error_witness :
    task_fit okOracle cfgHyb tableLin [] = .error alphaAttrError :=
  firth_hybrid_alpha_attribute_error okOracle cfgHyb tableLin [] fr0 rfl rfl

/-- C10: for every task that passes validation and whose covariate list
is empty after constant-covariate removal (the remaining columns are
exactly predictor and dependent), the emitted equation string is the
dependent, " ~ ", the predictor, and a trailing " + " with nothing after
it — the separator is written unconditionally before joining the empty
covariate list. -/
theorem equation_empty_covariates (fits : FitOracle) (cfg : MASConfig)
    (table : DF) (p d : String)
    (hval : (validate_regression_input (task_df table cfg p d) p d cfg
      (get_output_schema cfg.model)).failed_reason = "nan")
    (hcols : (drop_constant_covariates_for_regression (task_df table cfg p d)
      cfg).cols = [p, d]) :
    (run_single_regression fits cfg table p d).equation =
      d ++ " ~ " ++ p ++ " + " := by
  unfold run_single_regression
  rw [if_neg (by rw [hval]; simp)]
  have heq : task_equation (drop_constant_covariates_for_regression
      (task_df table cfg p d) cfg) = d ++ " ~ " ++ p ++ " + " := by
    unfold task_equation task_covariates task_pred_col task_dep_col
    rw [hcols]
    simp [String.intercalate]
  cases htf : task_fit fits cfg
      (task_X (drop_constant_covariates_for_regression (task_df table cfg p d) cfg))
      (task_y (drop_constant_covariates_for_regression (task_df table cfg p d) cfg)) with
  | ok fr => simp only [heq]; rw [htf]; simp [applyFit]
  | error e => simp only [heq]; rw [htf]

/-- C10 witness: a batch configured with no covariates emits the
dangling-separator equation. -/
theorem equation_empty_covariates_witness :
    (run_single_regression errOracle cfgLinNoCov tableLin "p" "d").equation =
      "d" ++ " ~ " ++ "p" ++ " + " :=
  equation_empty_covariates errOracle cfgLinNoCov tableLin "p" "d"
    (by decide) (by decide)

/-- C6 counterexample: a row that is null in a covariate but complete in
predictor and dependent stays in the per-task data.  With `tableCov`
(2 rows, the first null in covariate `c1`) and `min_case_count = 2`, the
code's row count is 2 while the claim's all-columns-non-null count is 1;
validation passes although the claim predicts an "insufficient data"
failure. -/
theorem task_rows_covariate_nulls_cex :
    (task_df tableCov cfgLinCov "p" "d").height = 2 ∧
    claimed_available_rows tableCov cfgLinCov "p" "d" = 1 ∧
    (run_single_regression errOracle cfgLinCov tableCov "p" "d").failed_reason
      ≠ "Insufficient data: " ++ toString 1 ++ " rows (< " ++ toString 2 ++ ")" := by
  refine ⟨by decide, by decide, ?_⟩
  decide

/-- C6 (amended): the per-task data excludes exactly the rows that are
null in the predictor or the dependent column — a null in a covariate
column does not exclude a row — and it is this count that the
"insufficient data" validation compares against `min_case_count`. -/
theorem task_rows_drop_nulls_pred_dep (table : DF) (cfg : MASConfig)
    (p d : String) :
    (task_df table cfg p d).height =
      (table.rows.filter (fun r => (r p).isSome && (r d).isSome)).length ∧
    ∀ fits, (task_df table cfg p d).height < cfg.min_case_count →
      (run_single_regression fits cfg table p d).failed_reason =
        "Insufficient data: " ++ toString (task_df table cfg p d).height ++
          " rows (< " ++ toString cfg.min_case_count ++ ")" := by
  constructor
  · simp [task_df, DF.select, DF.drop_nulls, DF.height, List.all_cons,
      List.all_nil, Bool.and_true]
  · intro fits h
    have hval : (validate_regression_input (task_df table cfg p d) p d cfg
        (get_output_schema cfg.model)).failed_reason =
        "Insufficient data: " ++ toString (task_df table cfg p d).height ++
          " rows (< " ++ toString cfg.min_case_count ++ ")" := by
      unfold validate_regression_input
      rw [if_pos h]
    have hne : ("Insufficient data: " ++ toString (task_df table cfg p d).height ++
        " rows (< " ++ toString cfg.min_case_count ++ ")") ≠ "nan" := by
      intro hEq
      have hlen := congrArg String.length hEq
      simp only [String.length_append] at hlen
      rw [show ("Insufficient data: ").length = 19 from rfl,
        show (" rows (< ").length = 9 from rfl,
        show (")").length = 1 from rfl,
        show ("nan").length = 3 from rfl] at hlen
      omega
    unfold run_single_regression
    rw [if_pos (by rw [hval]; exact hne)]
    exact hval

/-- C6 witness: the amended statement evaluated at a concrete table with
the CLI-default `min_case_count = 20`. -/
theorem task_rows_drop_nulls_pred_dep_witness :
    ((task_df tableBin cfgLogBig "p" "d").height =
      (tableBin.rows.filter (fun r => (r "p").isSome && (r "d").isSome)).length) ∧
    (run_single_regression errOracle cfgLogBig tableBin "p" "d").failed_reason =
      "Insufficient data: " ++ toString (task_df tableBin cfgLogBig "p" "d").height ++
        " rows (< " ++ toString cfgLogBig.min_case_count ++ ")" :=
  ⟨(task_rows_drop_nulls_pred_dep tableBin cfgLogBig "p" "d").1,
   (task_rows_drop_nulls_pred_dep tableBin cfgLogBig "p" "d").2 errOracle
     (by decide)⟩

/-- C9: a covariate column with at most one distinct value in a task's
data is dropped locally: it is absent from the task's remaining columns,
from the covariate list joined into the equation string, and from the
design matrix `X`, while the dependent and predictor keep their
positions; the configured `covariate_columns` list itself still carries
the column (the hypotheses `hp`/`hd` are the config invariant of
`MASConfig._assert_unique_column_sets`: predictor and dependent are not
covariates). -/
theorem constant_covariate_dropped_locally (cfg : MASConfig) (table : DF)
    (p d c : String)
    (hc : c ∈ cfg.covariate_columns)
    (hp : p ∉ cfg.covariate_columns)
    (hd : d ∉ cfg.covariate_columns)
    (hconst : (task_df table cfg p d).nUnique c ≤ 1) :
    task_pred_col (drop_constant_covariates_for_regression
      (task_df table cfg p d) cfg) = p ∧
    task_dep_col (drop_constant_covariates_for_regression
      (task_df table cfg p d) cfg) = d ∧
    c ∉ (drop_constant_covariates_for_regression
      (task_df table cfg p d) cfg).cols ∧
    c ∉ task_covariates (drop_constant_covariates_for_regression
      (task_df table cfg p d) cfg) ∧
    c ∉ (task_X (drop_constant_covariates_for_regression
      (task_df table cfg p d) cfg)).cols ∧
    c ∈ cfg.covariate_columns := by
  have hcc : c ∈ cfg.covariate_columns.filter
      (fun x => (task_df table cfg p d).nUnique x ≤ 1) :=
    List.mem_filter.mpr ⟨hc, by simpa using hconst⟩
  have hne1 : cfg.covariate_columns.isEmpty = false := by
    cases hcv : cfg.covariate_columns with
    | nil => rw [hcv] at hc; exact absurd hc (List.not_mem_nil c)
    | cons x xs => rfl
  have hne2 : (cfg.covariate_columns.filter
      (fun x => (task_df table cfg p d).nUnique x ≤ 1)).isEmpty = false := by
    cases hcv : cfg.covariate_columns.filter
        (fun x => (task_df table cfg p d).nUnique x ≤ 1) with
    | nil => rw [hcv] at hcc; exact absurd hcc (List.not_mem_nil c)
    | cons x xs => rfl
  have hdf2 : drop_constant_covariates_for_regression (task_df table cfg p d)
      cfg = (task_df table cfg p d).drop (cfg.covariate_columns.filter
        (fun x => (task_df table cfg p d).nUnique x ≤ 1)) := by
    unfold drop_constant_covariates_for_regression
    rw [if_neg (by rw [hne1]; exact Bool.false_ne_true),
      if_neg (by rw [hne2]; exact Bool.false_ne_true)]
  have hcolsdf : (task_df table cfg p d).cols = p :: d :: cfg.covariate_columns := by
    simp [task_df, DF.select, DF.drop_nulls]
  have hpc : (cfg.covariate_columns.filter
      (fun x => (task_df table cfg p d).nUnique x ≤ 1)).contains p = false := by
    simp only [List.contains, List.elem_eq_mem, decide_eq_false_iff_not]
    exact fun hmem => hp (List.mem_filter.mp hmem).1
  have hdc : (cfg.covariate_columns.filter
      (fun x => (task_df table cfg p d).nUnique x ≤ 1)).contains d = false := by
    simp only [List.contains, List.elem_eq_mem, decide_eq_false_iff_not]
    exact fun hmem => hd (List.mem_filter.mp hmem).1
  have hcontc : (cfg.covariate_columns.filter
      (fun x => (task_df table cfg p d).nUnique x ≤ 1)).contains c = true := by
    simp only [List.contains, List.elem_eq_mem, decide_eq_true_eq]
    exact hcc
  have hcols2 : (drop_constant_covariates_for_regression (task_df table cfg p d)
      cfg).cols = p :: d :: cfg.covariate_columns.filter
        (fun x => !(cfg.covariate_columns.filter
          (fun y => (task_df table cfg p d).nUnique y ≤ 1)).contains x) := by
    rw [hdf2]
    simp only [DF.drop]
    rw [hcolsdf, List.filter_cons_of_pos (by rw [hpc]; rfl),
      List.filter_cons_of_pos (by rw [hdc]; rfl)]
  have hcnot : c ∉ (drop_constant_covariates_for_regression
      (task_df table cfg p d) cfg).cols := by
    rw [hcols2]
    intro hmem
    rw [List.mem_cons, List.mem_cons] at hmem
    rcases hmem with h | h | h
    · exact hp (h ▸ hc)
    · exact hd (h ▸ hc)
    · have hf := (List.mem_filter.mp h).2
      rw [hcontc] at hf
      simp at hf
  have hpred : task_pred_col (drop_constant_covariates_for_regression
      (task_df table cfg p d) cfg) = p := by
    unfold task_pred_col
    rw [hcols2]
    rfl
  have hdep : task_dep_col (drop_constant_covariates_for_regression
      (task_df table cfg p d) cfg) = d := by
    unfold task_dep_col
    rw [hcols2]
    rfl
  have hcov : c ∉ task_covariates (drop_constant_covariates_for_regression
      (task_df table cfg p d) cfg) := by
    unfold task_covariates
    intro hmem
    exact hcnot (List.mem_filter.mp hmem).1
  refine ⟨hpred, hdep, hcnot, hcov, ?_, hc⟩
  unfold task_X DF.select
  intro hmem
  rw [List.mem_cons] at hmem
  rcases hmem with h | h
  · rw [hpred] at h
    exact hp (h ▸ hc)
  · exact hcov h

/-- C9 witness: covariate `c1` of `tableC9` holds the single value 5 and
is dropped locally while remaining configured. -/
theorem constant_covariate_dropped_locally_witness :
    task_pred_col (drop_constant_covariates_for_regression
      (task_df tableC9 cfgLinCov2 "p" "d") cfgLinCov2) = "p" ∧
    task_dep_col (drop_constant_covariates_for_regression
      (task_df tableC9 cfgLinCov2 "p" "d") cfgLinCov2) = "d" ∧
    "c1" ∉ (drop_constant_covariates_for_regression
      (task_df tableC9 cfgLinCov2 "p" "d") cfgLinCov2).cols ∧
    "c1" ∉ task_covariates (drop_constant_covariates_for_regression
      (task_df tableC9 cfgLinCov2 "p" "d") cfgLinCov2) ∧
    "c1" ∉ (task_X (drop_constant_covariates_for_regression
      (task_df tableC9 cfgLinCov2 "p" "d") cfgLinCov2)).cols ∧
    "c1" ∈ cfgLinCov2.covariate_columns :=
  constant_covariate_dropped_locally cfgLinCov2 tableC9 "p" "d" "c1"
    (by decide) (by decide) (by decide) (by decide)

/-- Summing a column that holds `v` in every row gives `length * v`. -/
theorem sum_getD_const (l : List Row) (dep : String) (v : ℚ)
    (h : ∀ r ∈ l, r dep = some v) :
    (l.map (fun r => (r dep).getD 0)).sum = (l.length : ℚ) * v := by
  induction l with
  | nil => simp
  | cons r rs ih =>
    simp only [List.map_cons, List.sum_cons, List.length_cons]
    rw [h r (List.mem_cons_self r rs),
      ih (fun x hx => h x (List.mem_cons_of_mem r hx))]
    push_cast
    simp [Option.getD]
    ring

/-- Counting rows whose dependent cell is `w`, when every row holds `v`. -/
theorem count_dep_const (l : List Row) (dep : String) (v w : ℚ)
    (h : ∀ r ∈ l, r dep = some v) :
    (l.filter (fun r => decide (r dep = some w))).length =
      if v = w then l.length else 0 := by
  induction l with
  | nil => simp
  | cons r rs ih =>
    rw [List.filter_cons]
    have hr := h r (List.mem_cons_self r rs)
    have ih' := ih (fun x hx => h x (List.mem_cons_of_mem r hx))
    by_cases hvw : v = w
    · subst hvw
      rw [if_pos (by rw [hr]; simp), List.length_cons, ih']
      simp
    · rw [if_neg (by rw [hr]; simpa using hvw), ih', if_neg hvw, if_neg hvw]

/-- C7 counterexample: a binary-dependent task whose 4 available rows all
have response 1 but whose row count is below the (CLI-default)
`min_case_count = 20` fails with "Insufficient data", not with a
"no variation" reason, and its `cases` field keeps the −9 sentinel
rather than the true count 4. -/
theorem no_variation_cex :
    ¬ contains_ci (run_single_regression errOracle cfgLogBig tableBin
        "p" "d").failed_reason "no variation" ∧
    (run_single_regression errOracle cfgLogBig tableBin "p" "d").cases ≠ 4 := by
  constructor
  · unfold contains_ci lowerData
    decide
  · decide

/-- C7 (amended): for every binary-dependent task whose available rows
all have the same response value and whose row count is at least
`min_case_count`, the emitted row's failed reason contains
"no variation" (case-insensitively; the literal is "No variation in
dependent variable (all cases or all controls)"), `cases`/`controls`
equal the true counts of ones and zeros over the available rows, and no
fit is attempted (the row does not depend on the fitting oracle). -/
theorem no_variation_reason_and_counts (fits fits' : FitOracle)
    (cfg : MASConfig) (table : DF) (p d : String) (v : ℚ)
    (hmodel : cfg.model = .logistic ∨ cfg.model = .firth ∨
      cfg.model = .firthHybrid)
    (hmin : cfg.min_case_count ≤ (task_df table cfg p d).height)
    (hv : v = 0 ∨ v = 1)
    (hall : ∀ r ∈ (task_df table cfg p d).rows, r d = some v) :
    contains_ci (run_single_regression fits cfg table p d).failed_reason
      "no variation" ∧
    (run_single_regression fits cfg table p d).cases =
      (count_dep_rows (task_df table cfg p d) d 1 : ℚ) ∧
    (run_single_regression fits cfg table p d).controls =
      (count_dep_rows (task_df table cfg p d) d 0 : ℚ) ∧
    run_single_regression fits cfg table p d =
      run_single_regression fits' cfg table p d := by
  have hlt : ¬ ((task_df table cfg p d).height < cfg.min_case_count) :=
    not_lt.mpr hmin
  have hsum : (task_df table cfg p d).colSum d =
      ((task_df table cfg p d).height : ℚ) * v :=
    sum_getD_const _ d v hall
  have hor : (task_df table cfg p d).colSum d = 0 ∨
      ((task_df table cfg p d).height : ℚ) -
        (task_df table cfg p d).colSum d = 0 := by
    rcases hv with h0 | h1
    · left
      rw [hsum, h0, mul_zero]
    · right
      rw [hsum, h1, mul_one, sub_self]
  have hccc : check_case_counts (task_df table cfg p d) d cfg.min_case_count =
      (false, "No variation in dependent variable (all cases or all controls)",
        (task_df table cfg p d).colSum d,
        ((task_df table cfg p d).height : ℚ) -
          (task_df table cfg p d).colSum d,
        (task_df table cfg p d).height) := by
    unfold check_case_counts
    rw [if_pos hor]
  have hval : validate_regression_input (task_df table cfg p d) p d cfg
      (get_output_schema cfg.model) =
      { (get_output_schema cfg.model) with
        predictor := p
        dependent := d
        failed_reason :=
          "No variation in dependent variable (all cases or all controls)"
        cases := (task_df table cfg p d).colSum d
        controls := ((task_df table cfg p d).height : ℚ) -
          (task_df table cfg p d).colSum d
        total_n := ((task_df table cfg p d).height : ℚ) } := by
    unfold validate_regression_input
    rw [if_neg hlt, if_pos hmodel, hccc]
  have hrun : ∀ g : FitOracle, run_single_regression g cfg table p d =
      validate_regression_input (task_df table cfg p d) p d cfg
        (get_output_schema cfg.model) := by
    intro g
    unfold run_single_regression
    rw [if_pos (by
      rw [hval]
      show "No variation in dependent variable (all cases or all controls)" ≠ "nan"
      decide)]
  have hc1 : (count_dep_rows (task_df table cfg p d) d 1 : ℚ) =
      if v = 1 then ((task_df table cfg p d).height : ℚ) else 0 := by
    unfold count_dep_rows
    rw [count_dep_const _ d v 1 hall]
    split
    · rfl
    · rfl
  have hc0 : (count_dep_rows (task_df table cfg p d) d 0 : ℚ) =
      if v = 0 then ((task_df table cfg p d).height : ℚ) else 0 := by
    unfold count_dep_rows
    rw [count_dep_const _ d v 0 hall]
    split
    · rfl
    · rfl
  refine ⟨?_, ?_, ?_, ?_⟩
  · rw [hrun fits, hval]
    show contains_ci
      "No variation in dependent variable (all cases or all controls)"
      "no variation"
    unfold contains_ci lowerData
    decide
  · rw [hrun fits, hval]
    show (task_df table cfg p d).colSum d = _
    rw [hsum, hc1]
    rcases hv with h0 | h1
    · rw [h0, if_neg (by norm_num), mul_zero]
    · rw [h1, if_pos rfl, mul_one]
  · rw [hrun fits, hval]
    show ((task_df table cfg p d).height : ℚ) -
      (task_df table cfg p d).colSum d = _
    rw [hsum, hc0]
    rcases hv with h0 | h1
    · rw [h0, if_pos rfl, mul_zero, sub_zero]
    · rw [h1, if_neg (by norm_num), mul_one, sub_self]
  · rw [hrun fits, hrun fits']

/-- C7 witness: 4 available rows all positive with `min_case_count = 2`:
the reason contains "no variation", cases = 4, controls = 0, and the row
is the same whether the oracle raises or fits. -/
theorem no_variation_reason_and_counts_witness :
    contains_ci (run_single_regression errOracle cfgLog tableBin
      "p" "d").failed_reason "no variation" ∧
    (run_single_regression errOracle cfgLog tableBin "p" "d").cases =
      (count_dep_rows (task_df tableBin cfgLog "p" "d") "d" 1 : ℚ) ∧
    (run_single_regression errOracle cfgLog tableBin "p" "d").controls =
      (count_dep_rows (task_df tableBin cfgLog "p" "d") "d" 0 : ℚ) ∧
    run_single_regression errOracle cfgLog tableBin "p" "d" =
      run_single_regression okOracle cfgLog tableBin "p" "d" :=
  no_variation_reason_and_counts errOracle okOracle cfgLog tableBin "p" "d" 1
    (by decide) (by decide) (by decide) (by decide)

/-- Validation stamps the task's predictor and dependent into the row. -/
theorem validate_pair (df : DF) (p d : String) (cfg : MASConfig)
    (s : ResultRow) :
    (validate_regression_input df p d cfg s).predictor = p ∧
    (validate_regression_input df p d cfg s).dependent = d := by
  unfold validate_regression_input
  constructor <;> (split <;> (try split)) <;> rfl

/-- Every emitted row carries its task's (predictor, dependent) pair. -/
theorem run_single_pair (fits : FitOracle) (cfg : MASConfig) (table : DF)
    (p d : String) :
    (run_single_regression fits cfg table p d).predictor = p ∧
    (run_single_regression fits cfg table p d).dependent = d := by
  have hv := validate_pair (task_df table cfg p d) p d cfg
    (get_output_schema cfg.model)
  unfold run_single_regression
  dsimp only
  constructor
  · split
    · exact hv.1
    · split
      · simp [applyFit, hv.1]
      · simp [hv.1]
  · split
    · exact hv.2
    · split
      · simp [applyFit, hv.2]
      · simp [hv.2]

/-- A caught fit exception is recorded into the row's failed reason. -/
theorem run_single_fit_error (fits : FitOracle) (cfg : MASConfig) (table : DF)
    (p d : String) (e : String)
    (hval : (validate_regression_input (task_df table cfg p d) p d cfg
      (get_output_schema cfg.model)).failed_reason = "nan")
    (herr : task_fit fits cfg
      (task_X (drop_constant_covariates_for_regression (task_df table cfg p d) cfg))
      (task_y (drop_constant_covariates_for_regression (task_df table cfg p d) cfg)) =
      .error e) :
    (run_single_regression fits cfg table p d).failed_reason = e := by
  unfold run_single_regression
  rw [if_neg (by rw [hval]; simp)]
  simp only [herr]

/-- The pval order is transitive. -/
theorem pval_le_trans (x y z : Option ℚ) (h1 : pval_le x y = true)
    (h2 : pval_le y z = true) : pval_le x z = true := by
  cases x <;> cases y <;> cases z <;> simp [pval_le] at *
  exact le_trans h1 h2

/-- The pval order is total. -/
theorem pval_le_total (x y : Option ℚ) : pval_le x y || pval_le y x := by
  cases x <;> cases y <;> simp [pval_le]
  exact le_total _ _

/-- C2: for every batch that completes (no pool-level exception), the
aggregated output is `Except.ok` and carries exactly one row per
requested (predictor, dependent) pair — the multiset of the rows'
(predictor, dependent) pairs is a permutation of the configured cross
product — and any per-task fit exception is converted into that task's
row by recording its message into `failed_reason` rather than aborting
the batch. -/
theorem run_all_one_row_per_pair (fits : FitOracle) (cfg : MASConfig)
    (table : DF) (env : Env) :
    (∃ rows, (run_all_regressions fits cfg table none env).1 =
        Except.ok rows ∧
      List.Perm (rows.map (fun r => (r.predictor, r.dependent)))
        (batch_targets cfg)) ∧
    (∀ p d e,
      (validate_regression_input (task_df table cfg p d) p d cfg
        (get_output_schema cfg.model)).failed_reason = "nan" →
      task_fit fits cfg
        (task_X (drop_constant_covariates_for_regression
          (task_df table cfg p d) cfg))
        (task_y (drop_constant_covariates_for_regression
          (task_df table cfg p d) cfg)) = .error e →
      (run_single_regression fits cfg table p d).failed_reason = e) := by
  constructor
  · have hok : (run_all_regressions fits cfg table none env).1 =
        Except.ok (((batch_targets cfg).map
          (fun t => run_single_regression fits cfg table t.1 t.2)).mergeSort
            row_le) := rfl
    refine ⟨((batch_targets cfg).map
      (fun t => run_single_regression fits cfg table t.1 t.2)).mergeSort
        row_le, hok, ?_⟩
    have hmap : (((batch_targets cfg).map
        (fun t => run_single_regression fits cfg table t.1 t.2)).map
          (fun r => (r.predictor, r.dependent))) = batch_targets cfg := by
      rw [List.map_map]
      have hcongr : ∀ t ∈ batch_targets cfg,
          ((fun r : ResultRow => (r.predictor, r.dependent)) ∘
            (fun t : String × String =>
              run_single_regression fits cfg table t.1 t.2)) t = id t := by
        intro t _
        show ((run_single_regression fits cfg table t.1 t.2).predictor,
          (run_single_regression fits cfg table t.1 t.2).dependent) = t
        rw [(run_single_pair fits cfg table t.1 t.2).1,
          (run_single_pair fits cfg table t.1 t.2).2]
      rw [List.map_congr_left hcongr, List.map_id]
    have hperm := (List.mergeSort_perm ((batch_targets cfg).map
      (fun t => run_single_regression fits cfg table t.1 t.2)) row_le).map
        (fun r : ResultRow => (r.predictor, r.dependent))
    rw [hmap] at hperm
    exact hperm
  · intro p d e hval herr
    exact run_single_fit_error fits cfg table p d e hval herr

/-- C4: whenever the batch completes with `Except.ok rows`, the
aggregated table is sorted ascending by `pval` (under polars' float
order, NaN greatest), and in particular every row whose `pval` is the
NaN sentinel comes after every row with a numeric p-value. -/
theorem run_all_sorted_by_pval (fits : FitOracle) (cfg : MASConfig)
    (table : DF) (env : Env) (rows : List ResultRow)
    (h : (run_all_regressions fits cfg table none env).1 = Except.ok rows) :
    List.Pairwise (fun a b => row_le a b = true) rows ∧
    List.Pairwise (fun a b : ResultRow => a.pval = none → b.pval = none)
      rows := by
  have hok : (run_all_regressions fits cfg table none env).1 =
      Except.ok (((batch_targets cfg).map
        (fun t => run_single_regression fits cfg table t.1 t.2)).mergeSort
          row_le) := rfl
  have hrows : rows = ((batch_targets cfg).map
      (fun t => run_single_regression fits cfg table t.1 t.2)).mergeSort
        row_le := (Except.ok.inj (hok.symm.trans h)).symm
  subst hrows
  have hsorted : (((batch_targets cfg).map
      (fun t => run_single_regression fits cfg table t.1 t.2)).mergeSort
        row_le).Pairwise (fun a b => row_le a b = true) := by
    have := List.sorted_mergeSort
      (fun a b c (h1 : row_le a b) (h2 : row_le b c) =>
        pval_le_trans a.pval b.pval c.pval h1 h2)
      (fun a b => pval_le_total a.pval b.pval)
      ((batch_targets cfg).map
        (fun t => run_single_regression fits cfg table t.1 t.2))
    exact this
  refine ⟨hsorted, hsorted.imp ?_⟩
  intro a b hab hna
  cases hb : b.pval with
  | none => rfl
  | some q =>
    rw [row_le, hna, hb] at hab
    simp [pval_le] at hab

/-- C4 witness: a concrete completed batch instantiates the sortedness
conclusion (the hypothesis is discharged by `rfl`). -/
theorem run_all_sorted_by_pval_witness :
    List.Pairwise (fun a b => row_le a b = true)
      (((batch_targets cfgLinNoCov).map
        (fun t => run_single_regression okOracle cfgLinNoCov tableLin
          t.1 t.2)).mergeSort row_le) ∧
    List.Pairwise (fun a b : ResultRow => a.pval = none → b.pval = none)
      (((batch_targets cfgLinNoCov).map
        (fun t => run_single_regression okOracle cfgLinNoCov tableLin
          t.1 t.2)).mergeSort row_le) :=
  run_all_sorted_by_pval okOracle cfgLinNoCov tableLin ⟨none⟩ _ rfl

/-- C2 witness: a concrete batch whose every fit raises still yields
`Except.ok` with one row per pair, and the task's row records the
exception message. -/
theorem run_all_one_row_per_pair_witness :
    (∃ rows, (run_all_regressions errOracle cfgLinNoCov tableLin none
        ⟨none⟩).1 = Except.ok rows ∧
      List.Perm (rows.map (fun r => (r.predictor, r.dependent)))
        (batch_targets cfgLinNoCov)) ∧
    (run_single_regression errOracle cfgLinNoCov tableLin "p"
      "d").failed_reason = "boom" :=
  ⟨(run_all_one_row_per_pair errOracle cfgLinNoCov tableLin ⟨none⟩).1,
   (run_all_one_row_per_pair errOracle cfgLinNoCov tableLin ⟨none⟩).2
     "p" "d" "boom" (by decide) rfl⟩
